import Mathlib

/-!
# Verification of the nova-software-common flight state machine core

This file gives a shallow embedding, in Lean 4, of the core data model and
operations of the `nova-software-common` repository:

* the fixed-capacity append-only collection `FrozenVec`
  (`src/common/src/config_format/frozen.rs` and `src/src/frozen.rs`),
* the portable (index) and executable (reference) state-graph forms and the
  converter `indices_to_refs` (`src/src/index.rs`, `src/src/conversions.rs`,
  `src/config-format/src/reference.rs`),
* the per-tick execution engine `StateMachine`
  (`src/common/src/state_machine/executor.rs`),
* the check/command data model (`src/common/src/config_format/mod.rs`).

Modelling conventions:

* `f32` values (altitudes, bounds) and `Seconds` durations are modelled as
  rationals `ℚ`.  All comparisons used by the code are order comparisons of
  non-NaN floats (`Seconds` wraps `ordered_float::NotNan<f32>`), which are
  order-embeddings into the reals, so `ℚ` with its usual order is a faithful
  model for the finite values appearing in any concrete scenario.
* `u8`/`u16` values are modelled as `Nat` with an explicit `% 2^w` where the
  source performs a cast.
* Native references `&'s State<'s>` of the executable form are modelled as
  positions (indices) into the single arena-allocated array of states: the
  source allocates all states in one slice and every reference produced by
  `transition_index_to_ref` is `&init[s]` for a position `s`.
* The caller-supplied arena (`&dyn LocalAlloc`) is modelled as a function
  `Nat → Bool` giving the success of the k-th allocation call made by
  `indices_to_refs` (call 0 is the backing array for the states; each check
  and command node allocation is one further call, in program order).
* Rust panics (`unwrap`, `panic!`) are modelled explicitly: the converter
  returns a value of the three-way type `Conv` (`ok` / `noMem` / `panicked`),
  matching `Option`'s `Some`/`None` plus the panic exits.
* `Timestamp::now()` is modelled by passing the current time `now : ℚ` to
  each tick; `GenericTimestamp::elapsed` (0 when the stamp is in the future,
  per its doc comment in `state_machine/traits.rs`) is `max (now - t) 0`.
-/

namespace Nova

/-! ## Fixed-capacity append-only collection (`FrozenVec`)

Two implementations exist in the repository:
`src/common/src/config_format/frozen.rs` (called "common" below) and
`src/src/frozen.rs` (called "src" below).  Both store `N` possibly
uninitialized slots plus a length counter.  We model the buffer as a list of
`Option α` of length `N`: `none` is an uninitialized (never written) slot. -/

structure FrozenVec (α : Type) (N : Nat) where
  /-- The `N` slots; `none` models an uninitialized `MaybeUninit` slot. -/
  buf : List (Option α)
  /-- Number of elements pushed so far. -/
  len : Nat
deriving DecidableEq, Repr

namespace FrozenVec

/-- Embedding of `FrozenVec::new()`: all slots uninitialized, `len = 0`. -/
def new (α : Type) (N : Nat) : FrozenVec α N := ⟨List.replicate N none, 0⟩

/-- Well-formedness maintained by the API: the buffer really has `N` slots,
the length never exceeds the capacity, and the first `len` slots are
initialized. -/
def Wf {α : Type} {N : Nat} (v : FrozenVec α N) : Prop :=
  v.buf.length = N ∧ v.len ≤ N ∧ ∀ i, i < v.len → (v.buf.getD i none).isSome

instance {α : Type} {N : Nat} (v : FrozenVec α N) : Decidable (Wf v) :=
  inferInstanceAs (Decidable (v.buf.length = N ∧ v.len ≤ N ∧
    ∀ i, i < v.len → (v.buf.getD i none).isSome = true))

/-- The write performed by `push_unchecked` / `push_get_unchecked`:
store the item at slot `len` and increment `len`. -/
def pushAux {α : Type} {N : Nat} (v : FrozenVec α N) (item : α) : FrozenVec α N :=
  ⟨v.buf.set v.len (some item), v.len + 1⟩

/-- Embedding of `FrozenVec::push` of `src/common/src/config_format/frozen.rs` (lines
66-73): `if self.is_full() { Err(item) } else { Ok(push_unchecked(item)) }`
where `is_full()` is `len() == capacity()`. -/
def push {α : Type} {N : Nat} (v : FrozenVec α N) (item : α) :
    Except α (FrozenVec α N) :=
  if v.len = N then .error item else .ok (v.pushAux item)

/-- Embedding of `FrozenVec::push` of `src/src/frozen.rs` (lines 34-46):
`if self.len() < self.capacity() { push_unchecked(item); Ok(()) } else { Err(item) }`. -/
def pushS {α : Type} {N : Nat} (v : FrozenVec α N) (item : α) :
    Except α (FrozenVec α N) :=
  if v.len < N then .ok (v.pushAux item) else .error item

/-- Embedding of `FrozenVec::get` of `src/common/src/config_format/frozen.rs` (lines
122-130): `if index < self.len() { Some(get_unchecked(index)) } else { None }`;
`get_unchecked` reads the initialized slot at `index`. -/
def get {α : Type} {N : Nat} (v : FrozenVec α N) (index : Nat) : Option α :=
  if index < v.len then v.buf.getD index none else none

/-- Embedding of `FrozenVec::get` of `src/src/frozen.rs` (lines 82-92):
`(*buffer).get(index).map(|x| x.assume_init_ref().deref())`.  The slice
`buffer` has length `N` (not `len`), so the bounds check is against the
capacity.  The outer `Option` is the function's return value (`none` iff
`index ≥ N`); the inner `Option α` is the content of the slot that
`assume_init_ref` then reads (`none` means the read touches an
uninitialized slot). -/
def getS {α : Type} {N : Nat} (v : FrozenVec α N) (index : Nat) :
    Option (Option α) :=
  v.buf.get? index

end FrozenVec

end Nova

namespace Nova

/-! ## Check / command data model (`src/common/src/config_format/mod.rs`)

`f32` bounds are modelled as `ℚ`; `NativeFlagCondition` and
`PyroContinuityCondition` are newtype wrappers around `bool` whose
`PartialEq<bool>` compares the wrapped boolean, so they are modelled as the
wrapped `Bool` directly. -/

/-- Embedding of `FloatCondition` (config_format/mod.rs lines 53-58).  Field order of
`Between` follows the source: `upper_bound` first, then `lower_bound`. -/
inductive FloatCondition where
  | greaterThan (bound : ℚ)
  | lessThan (bound : ℚ)
  | between (upper_bound lower_bound : ℚ)
deriving DecidableEq, Repr

/-- Embedding of `CheckData` (config_format/mod.rs lines 60-67). -/
inductive CheckData where
  | altitude (condition : FloatCondition)
  | apogeeFlag (expected : Bool)
  | pyro1Continuity (expected : Bool)
  | pyro2Continuity (expected : Bool)
  | pyro3Continuity (expected : Bool)
deriving DecidableEq, Repr

/-- Embedding of `CheckKind` (config_format/mod.rs lines 81-88). -/
inductive CheckKind where
  | altitude
  | apogeeFlag
  | pyro1Continuity
  | pyro2Continuity
  | pyro3Continuity
deriving DecidableEq, Repr

/-- Embedding of `CheckData::kind` (config_format/mod.rs lines 69-79, identical in
data_format/mod.rs lines 69-79).  Note the source maps the `ApogeeFlag`
variant to `CheckKind::Altitude`. -/
def CheckData.kind : CheckData → CheckKind
  | .altitude _ => .altitude
  | .apogeeFlag _ => .altitude
  | .pyro1Continuity _ => .pyro1Continuity
  | .pyro2Continuity _ => .pyro2Continuity
  | .pyro3Continuity _ => .pyro3Continuity

/-- Embedding of `Value` (config_format/mod.rs lines 92-100): the tagged union of the
three primitive shapes.  `u16` payloads are `Nat`s below `2^16` at use
sites. -/
inductive Value where
  | bool (b : Bool)
  | f32 (v : ℚ)
  | u16 (v : Nat)
deriving DecidableEq, Repr

/-- Embedding of `CommandValue` (config_format/mod.rs lines 103-110); called
`CommandObject` in the data_format copy. -/
inductive CommandValue where
  | pyro1 (b : Bool)
  | pyro2 (b : Bool)
  | pyro3 (b : Bool)
  | beacon (b : Bool)
  | dataRate (r : Nat)
deriving DecidableEq, Repr

/-- Embedding of `Seconds` (config_format/mod.rs line 15): a non-NaN `f32` duration,
totally ordered; modelled as `ℚ`. -/
abbrev Seconds : Type := ℚ

/-! ## Portable (index) graph form (`src/src/index.rs`)

`StateIndex` is a `u8` newtype; it is modelled as a `Nat` (every use site
converts it to `usize` via `From`).  Capacity constants come from
`src/src/lib.rs` lines 17-21.  (The `common/config_format` copy uses 3 for
the per-state capacities; no claim depends on the numeric value.) -/

def MAX_STATES : Nat := 16
def MAX_CHECKS_PER_STATE : Nat := 4
def MAX_COMMANDS_PER_STATE : Nat := 4

/-- Embedding of `index::StateTransition` (index.rs lines 118-124): the payload is the
index of a state. -/
inductive IStateTransition where
  | transition (s : Nat)
  | abort (s : Nat)
deriving DecidableEq, Repr

/-- The state index carried by either variant. -/
def IStateTransition.target : IStateTransition → Nat
  | .transition s => s
  | .abort s => s

/-- Embedding of `index::Check` (index.rs lines 88-92). -/
structure ICheck where
  data : CheckData
  transition : Option IStateTransition
deriving DecidableEq, Repr

/-- Embedding of `index::Command` (index.rs lines 103-110). -/
structure ICommand where
  object : CommandValue
  delay : Seconds
deriving DecidableEq, Repr

/-- Embedding of `index::Timeout` (index.rs lines 72-78). -/
structure ITimeout where
  time : Seconds
  transition : IStateTransition
deriving DecidableEq, Repr

/-- Embedding of `index::State` (index.rs lines 47-52): the `heapless::Vec` fields with
type-level capacities are modelled as lists; the capacity bounds are part
of `IConfigFile.Wf` below. -/
structure IState where
  checks : List ICheck
  commands : List ICommand
  timeout : Option ITimeout
deriving DecidableEq, Repr

/-- Embedding of `index::ConfigFile` (index.rs lines 9-13). -/
structure IConfigFile where
  default_state : Nat
  states : List IState
deriving DecidableEq, Repr

/-! ## Executable (reference) graph form (`src/config-format/src/reference.rs`)

All executable states live in the single slice allocated by
`indices_to_refs`; a `&'s State<'s>` reference is modelled as the position
of the referenced state in that slice. -/

/-- Embedding of `reference::StateTransition` (reference.rs lines 75-79): the payload is
(the position of) the referenced state. -/
inductive RStateTransition where
  | transition (s : Nat)
  | abort (s : Nat)
deriving DecidableEq, Repr

/-- The position of the state referenced by either variant. -/
def RStateTransition.target : RStateTransition → Nat
  | .transition s => s
  | .abort s => s

/-- Embedding of `reference::Check` (reference.rs lines 61-65). -/
structure RCheck where
  data : CheckData
  transition : Option RStateTransition
deriving DecidableEq, Repr

/-- Embedding of `reference::Command` (reference.rs lines 82-101): carries the one-shot
`was_executed : Cell<bool>` flag, fresh (`false`) at construction. -/
structure RCommand where
  object : CommandValue
  delay : Seconds
  was_executed : Bool
deriving DecidableEq, Repr

/-- Embedding of `reference::Timeout` (reference.rs lines 16-26). -/
structure RTimeout where
  time : Seconds
  transition : RStateTransition
deriving DecidableEq, Repr

/-- Embedding of `reference::State` (reference.rs lines 28-44): `id : u8` (modelled as a
`Nat` below 256), `FrozenVec`s of check/command references (modelled as
lists, capacity enforced by the push calls in the converter) and the
mutate-once timeout cell. -/
structure RState where
  id : Nat
  checks : List RCheck
  commands : List RCommand
  timeout : Option RTimeout
deriving DecidableEq, Repr

instance : Inhabited RState := ⟨⟨0, [], [], none⟩⟩

/-- Embedding of `reference::State::new(id)` (reference.rs lines 36-43): empty check and
command collections, no timeout. -/
def RState.new (id : Nat) : RState := ⟨id, [], [], none⟩

/-! ## Graph converter (`src/src/conversions.rs`)

The `&'static dyn LocalAlloc<'static>` arena is abstracted as a function
`alloc : Nat → Bool` giving the success of the k-th `alloc` call made by
`indices_to_refs` (the allocated addresses themselves are abstracted away:
states live at their positions in the result list and check/command nodes
are owned by the state they are pushed into).  Call 0 is the backing array
for the states; each `alloc_struct` call for a check or command node is the
next call, in program order.

Rust control flow is made explicit by the three-way result type `Conv`:
`ok` for a normal return, `noMem` for the early `None` return (the `?` on
the array allocation), and `panicked` for any `unwrap`/`panic!`. -/

/-- Result of a converter step: normal value, out-of-memory `None` return,
or panic. -/
inductive Conv (α : Type) where
  | ok (val : α)
  | noMem
  | panicked
deriving DecidableEq, Repr

/-- Embedding of `transition_index_to_ref` (conversions.rs lines 96-110): resolves a
state index into (the position of) the already-allocated executable state
at that position; `ref_states.get(s).unwrap()` panics if the index is out
of bounds of the state array (of length `len`). -/
def transition_index_to_ref (t : IStateTransition) (len : Nat) :
    Conv RStateTransition :=
  match t with
  | .transition s => if s < len then .ok (.transition s) else .panicked
  | .abort s => if s < len then .ok (.abort s) else .panicked

/-- The loop body of the check pass (conversions.rs lines 60-75), for one
check of state `i`: resolve the optional transition (a panic inside
`Option::map` propagates), allocate the check node (`alloc_struct(..).unwrap()`
panics when the arena is exhausted), then push it into the state's check
collection (at capacity, `panic!("State checks exceeded ...")`).
Returns the updated state together with the next allocation-call index. -/
def convCheck (alloc : Nat → Bool) (len : Nat) (st : RState) (k : Nat)
    (c : ICheck) : Conv (RState × Nat) :=
  let tr : Conv (Option RStateTransition) :=
    match c.transition with
    | none => .ok none
    | some t =>
      match transition_index_to_ref t len with
      | .ok r => .ok (some r)
      | .noMem => .noMem
      | .panicked => .panicked
  match tr with
  | .noMem => .noMem
  | .panicked => .panicked
  | .ok tr =>
    if alloc k then
      if st.checks.length = MAX_CHECKS_PER_STATE then .panicked
      else .ok ({ st with checks := st.checks ++ [⟨c.data, tr⟩] }, k + 1)
    else .panicked

/-- The check pass for one state: left-to-right over its portable checks. -/
def convChecks (alloc : Nat → Bool) (len : Nat) :
    RState → Nat → List ICheck → Conv (RState × Nat)
  | st, k, [] => .ok (st, k)
  | st, k, c :: cs =>
    match convCheck alloc len st k c with
    | .ok (st', k') => convChecks alloc len st' k' cs
    | .noMem => .noMem
    | .panicked => .panicked

/-- The loop body of the command pass (conversions.rs lines 77-85), for one
command: allocate the command node (`alloc_struct(*command).unwrap()`
panics when the arena is exhausted; the executable node carries the same
object and delay and a fresh `was_executed = false` flag), then push it
(at capacity, `panic!("State commands exceeded ...")`). -/
def convCommand (alloc : Nat → Bool) (st : RState) (k : Nat) (c : ICommand) :
    Conv (RState × Nat) :=
  if alloc k then
    if st.commands.length = MAX_COMMANDS_PER_STATE then .panicked
    else .ok ({ st with commands := st.commands ++ [⟨c.object, c.delay, false⟩] }, k + 1)
  else .panicked

/-- The command pass for one state. -/
def convCommands (alloc : Nat → Bool) :
    RState → Nat → List ICommand → Conv (RState × Nat)
  | st, k, [] => .ok (st, k)
  | st, k, c :: cs =>
    match convCommand alloc st k c with
    | .ok (st', k') => convCommands alloc st' k' cs
    | .noMem => .noMem
    | .panicked => .panicked

/-- The timeout pass (conversions.rs lines 87-91): resolve the timeout's
transition (panic on an out-of-bounds index) and store it into the
mutate-once cell.  No allocation is performed. -/
def convTimeout (len : Nat) (st : RState) (t : Option ITimeout) : Conv RState :=
  match t with
  | none => .ok st
  | some t =>
    match transition_index_to_ref t.transition len with
    | .ok tr => .ok { st with timeout := some ⟨t.time, tr⟩ }
    | .noMem => .noMem
    | .panicked => .panicked

/-- Second pass for one state: checks, then commands, then the timeout,
exactly in the order of the source loop body (conversions.rs lines 57-92). -/
def convState (alloc : Nat → Bool) (len : Nat) (ist : IState) (st : RState)
    (k : Nat) : Conv (RState × Nat) :=
  match convChecks alloc len st k ist.checks with
  | .ok (st, k) =>
    match convCommands alloc st k ist.commands with
    | .ok (st, k) =>
      match convTimeout len st ist.timeout with
      | .ok st => .ok (st, k)
      | .noMem => .noMem
      | .panicked => .panicked
    | .noMem => .noMem
    | .panicked => .panicked
  | .noMem => .noMem
  | .panicked => .panicked

/-- Second pass over all states, in original order.  `i` is the position of
the next state (its slot in the backing array was initialized to
`State::new(i as u8)` by the first pass — conversions.rs lines 34-37 — so
the pass starts from `RState.new (i % 256)`), and `k` is the index of the
next allocation call.  Filling a state's own slot cannot affect any other
state or any stored reference (references are positions), so initializing
and filling slot-by-slot is equivalent to the source's two passes; the
order of allocation calls and panics is preserved exactly. -/
def convStates (alloc : Nat → Bool) (len : Nat) :
    Nat → Nat → List IState → Conv (List RState)
  | _, _, [] => .ok []
  | i, k, ist :: rest =>
    match convState alloc len ist (RState.new (i % 256)) k with
    | .ok (st, k') =>
      match convStates alloc len (i + 1) k' rest with
      | .ok out => .ok (st :: out)
      | .noMem => .noMem
      | .panicked => .panicked
    | .noMem => .noMem
    | .panicked => .panicked

/-- Embedding of `indices_to_refs` (conversions.rs lines 11-94).

* `NonZeroLayout::from_layout(..).unwrap()` panics when the requested
  backing-array layout has size zero, i.e. when the config has no states
  (`size_of::<State>() > 0`).
* The backing-array allocation is call 0; on failure the `?` operator
  returns `None` (modelled by `Conv.noMem`).
* The first pass initializes slot `i` with `State::new(i as u8)`; the
  second pass fills each state (checks, commands, timeout) in order. -/
def indices_to_refs (cfg : IConfigFile) (alloc : Nat → Bool) :
    Conv (List RState) :=
  let len := cfg.states.length
  if len = 0 then .panicked
  else if alloc 0 then convStates alloc len 0 1 cfg.states
  else .noMem

/-- Well-formedness of a portable config, as assumed by the round-trip
claim: at least one state, within the state capacity, every state within
the per-state check/command capacities, and every transition index (from
checks and timeouts) in bounds.  Stated as a `Bool` so concrete configs can
be checked by evaluation. -/
def IConfigFile.Wf (cfg : IConfigFile) : Bool :=
  let len := cfg.states.length
  decide (0 < len) && decide (len ≤ MAX_STATES) &&
  cfg.states.all fun st =>
    decide (st.checks.length ≤ MAX_CHECKS_PER_STATE) &&
    decide (st.commands.length ≤ MAX_COMMANDS_PER_STATE) &&
    st.checks.all (fun c => c.transition.all fun t => decide (t.target < len)) &&
    st.timeout.all (fun t => decide (t.transition.target < len))

/-- The pure per-check translation realized by the converter: same
`CheckData`, transition resolved to the state at the same position. -/
def translateCheck (c : ICheck) : RCheck :=
  ⟨c.data, c.transition.map fun t =>
    match t with
    | .transition s => .transition s
    | .abort s => .abort s⟩

/-- The pure per-command translation: same object and delay, fresh flag. -/
def translateCommand (c : ICommand) : RCommand := ⟨c.object, c.delay, false⟩

/-- The pure per-timeout translation. -/
def translateTimeout (t : ITimeout) : RTimeout :=
  ⟨t.time, match t.transition with
           | .transition s => .transition s
           | .abort s => .abort s⟩

/-! ## Execution engine (`src/common/src/state_machine/executor.rs`)

`StateMachine` holds a reference into the executable graph plus two
timestamps.  As for the reference graph form, the `current_state` reference
is modelled as a position into the arena's state array, which the machine
therefore carries explicitly (`states`).  The per-command `was_executed`
cells and the states holding them live in that array, so flag updates are
updates of `states`.  `Timestamp::now()` is the tick's `now` argument;
`x.elapsed()` is `elapsed x now`. -/

/-- Embedding of `GenericTimestamp::elapsed` (state_machine/traits.rs lines 13-20):
seconds between the stamp and now (`try_elapsed`), `0` when the stamp is
in the future (`unwrap_or_else(|| Seconds::new(0.0))`). -/
def elapsed (t now : ℚ) : ℚ := if t ≤ now then now - t else 0

/-- Embedding of `StateMachine` (executor.rs lines 11-17).  `start_time` is set at
construction and never changed; `last_transition_time` is "the instant the
last state was activated". -/
structure StateMachine where
  states : List RState
  current_state : Nat
  start_time : ℚ
  last_transition_time : ℚ
deriving DecidableEq, Repr

/-- Embedding of `StateMachine::execute_command` (executor.rs lines 71-79): if the
command has not executed yet and `last_transition_time.elapsed() >= delay`,
mark it executed.  The command-sink call on line 75
(`self.controls.set(command.object)`) is commented out behind a `FIXME`, so
the live code performs no sink invocation. -/
def execute_command (last now : ℚ) (c : RCommand) : RCommand :=
  if !c.was_executed then
    if elapsed last now ≥ c.delay then { c with was_executed := true }
    else c
  else c

/-- Embedding of `StateMachine::execute_check` (executor.rs lines 81-111): the whole
evaluation body (lines 83-109) is commented out behind a `FIXME`; the live
function unconditionally returns `None`. -/
def execute_check (_check : RCheck) : Option RStateTransition := none

/-- The current state the machine's `current_state` reference points to. -/
def StateMachine.currentState (m : StateMachine) : RState :=
  m.states.getD m.current_state default

/-- The command loop of `execute_state` (executor.rs lines 46-49): run
`execute_command` on every command of the current state (the flags live in
the graph, so this updates the machine's state array). -/
def StateMachine.run_commands (m : StateMachine) (now : ℚ) : StateMachine :=
  let st := m.currentState
  { m with
    states := m.states.set m.current_state
      { st with commands := st.commands.map (execute_command m.last_transition_time now) } }

/-- The check and timeout part of `execute_state` (executor.rs lines 51-68):
the first check whose `execute_check` yields a transition short-circuits;
otherwise, if the state has a timeout and **`start_time`**`.elapsed() >=
timeout.time` (line 61 — the time since machine start, not since the state
was entered), its transition is selected.  Command execution only flips
`was_executed` flags, which none of this reads, so selection is computed
from the pre-command-pass state. -/
def StateMachine.select_transition (m : StateMachine) (now : ℚ) :
    Option RStateTransition :=
  let st := m.currentState
  match st.checks.findSome? execute_check with
  | some tr => some tr
  | none =>
    match st.timeout with
    | some timeout =>
      if elapsed m.start_time now ≥ timeout.time then some timeout.transition
      else none
    | none => none

/-- Embedding of `StateMachine::execute_state` (executor.rs lines 45-69): run the
commands, then return the selected transition, if any. -/
def StateMachine.execute_state (m : StateMachine) (now : ℚ) :
    StateMachine × Option RStateTransition :=
  (m.run_commands now, m.select_transition now)

/-- Embedding of `StateMachine::transition` (executor.rs lines 113-141): both variants
set `current_state` to the target state and reset `last_transition_time`
to now; the match arms differ only in the diagnostic `println!`. -/
def StateMachine.transition (m : StateMachine) (tr : RStateTransition)
    (now : ℚ) : StateMachine :=
  let new_state := match tr with
                   | .transition s => s
                   | .abort s => s
  { m with current_state := new_state, last_transition_time := now }

/-- Embedding of `StateMachine::execute` (executor.rs lines 38-42): one tick. -/
def StateMachine.execute (m : StateMachine) (now : ℚ) : StateMachine :=
  match m.execute_state now with
  | (m1, some tr) => m1.transition tr now
  | (m1, none) => m1

/-! ## The commented-out (`FIXME`) bodies of `execute_check` and
`execute_command`

The following definitions embed the disabled code *as written in the
comments* of executor.rs; they are the reference point for the claims about
check evaluation, which the live code never performs.  A `none` result
models the `unreachable!` panic on a value-shape mismatch. -/

/-- The check-evaluation match of the commented-out body of
`execute_check` (executor.rs lines 86-106), against the value read from
the data source: flag checks compare booleans, `Altitude` applies the
float condition — note `Between` (lines 91-94) is
`actual >= upper_bound && actual <= lower_bound` as written — and any other
data/value pairing is the `unreachable!` panic (`none`). -/
def check_satisfied : CheckData → Value → Option Bool
  | .apogeeFlag expected, .bool actual => some (expected == actual)
  | .altitude condition, .f32 actual =>
    some (match condition with
          | .lessThan expected => decide (actual < expected)
          | .greaterThan expected => decide (actual > expected)
          | .between upper_bound lower_bound =>
            decide (actual ≥ upper_bound) && decide (actual ≤ lower_bound))
  | .pyro1Continuity expected, .bool actual => some (expected == actual)
  | .pyro2Continuity expected, .bool actual => some (expected == actual)
  | .pyro3Continuity expected, .bool actual => some (expected == actual)
  | _, _ => none

/-- The commented-out body of `execute_check` (executor.rs lines 83-109):
read the value for `check.data.kind()` from the data workspace `ds`,
evaluate satisfaction, and return
`satisfied.then(|| check.transition).flatten()`.  Outer `none` is the
`unreachable!` panic. -/
def execute_check_fixme (ds : CheckKind → Value) (c : RCheck) :
    Option (Option RStateTransition) :=
  match check_satisfied c.data (ds c.data.kind) with
  | none => none
  | some satisfied => some (if satisfied then c.transition else none)

/-- The check loop of `execute_state` with the `FIXME` body restored: the
first check returning a transition short-circuits; a panic propagates. -/
def find_transition_fixme (ds : CheckKind → Value) :
    List RCheck → Option (Option RStateTransition)
  | [] => some none
  | c :: cs =>
    match execute_check_fixme ds c with
    | none => none
    | some (some tr) => some (some tr)
    | some none => find_transition_fixme ds cs

/-- Embedding of `execute_command` with the commented-out sink call (executor.rs line
75) restored: also returns the `CommandValue` passed to
`Controls::set`, if any. -/
def execute_command_fixme (last now : ℚ) (c : RCommand) :
    RCommand × List CommandValue :=
  if !c.was_executed then
    if elapsed last now ≥ c.delay then ({ c with was_executed := true }, [c.object])
    else (c, [])
  else (c, [])

/-- The command loop with the sink restored, collecting the sink calls in
declaration order. -/
def run_commands_fixme (last now : ℚ) :
    List RCommand → List RCommand × List CommandValue
  | [] => ([], [])
  | c :: cs =>
    let r := execute_command_fixme last now c
    let rest := run_commands_fixme last now cs
    (r.1 :: rest.1, r.2 ++ rest.2)

/-- One tick of `execute` with both `FIXME` bodies restored (data source
`ds`, sink calls returned).  The timeout branch is the live line 61, i.e.
still measured from `start_time`.  `none` models the `unreachable!` panic
on a value-shape mismatch. -/
def StateMachine.execute_fixme (ds : CheckKind → Value) (m : StateMachine)
    (now : ℚ) : Option (StateMachine × List CommandValue) :=
  let st := m.currentState
  let r := run_commands_fixme m.last_transition_time now st.commands
  let m1 : StateMachine :=
    { m with states := m.states.set m.current_state { st with commands := r.1 } }
  match find_transition_fixme ds st.checks with
  | none => none
  | some (some tr) => some (m1.transition tr now, r.2)
  | some none =>
    match st.timeout with
    | some timeout =>
      if elapsed m.start_time now ≥ timeout.time then
        some (m1.transition timeout.transition now, r.2)
      else some (m1, r.2)
    | none => some (m1, r.2)


/-! ## Specification predicates and concrete scenarios used by the claims -/

/-- A portable state whose transition indices are all within `len` and whose
collections are within the per-state capacities. -/
def ValidState (len : Nat) (st : IState) : Prop :=
  st.checks.length ≤ MAX_CHECKS_PER_STATE ∧
  st.commands.length ≤ MAX_COMMANDS_PER_STATE ∧
  (∀ c ∈ st.checks, ∀ t, c.transition = some t → t.target < len) ∧
  (∀ t, st.timeout = some t → t.transition.target < len)

/-- The executable state the converter is expected to produce at position
`i` from the portable state `ist` (id is `i as u8`). -/
def expectedState (i : Nat) (ist : IState) : RState :=
  ⟨i % 256, ist.checks.map translateCheck, ist.commands.map translateCommand,
   ist.timeout.map translateTimeout⟩

/-- The expected converter output for the portable states, positions
starting at `i`. -/
def expectedStates : Nat → List IState → List RState
  | _, [] => []
  | i, ist :: rest => expectedState i ist :: expectedStates (i + 1) rest

/-- Round-trip witness config (claim C1): two states; state 1 has two
checks (one forward reference to state 0, one self-loop abort), one
command, and a timeout back to state 0. -/
def cfgRT : IConfigFile :=
  ⟨1, [⟨[], [], none⟩,
       ⟨[⟨.apogeeFlag true, some (.transition 0)⟩,
         ⟨.pyro1Continuity false, some (.abort 1)⟩],
        [⟨.dataRate 16, 4⟩],
        some ⟨3, .transition 0⟩⟩]⟩

/-- Single-state config with one check (self-loop), used to exhibit the
allocation-failure panic of the second pass (claim C10). -/
def cfgOne : IConfigFile :=
  ⟨0, [⟨[⟨.altitude (.greaterThan 200), some (.transition 0)⟩], [], none⟩]⟩

/-- Claim C2 scenario: checks `[A (unsatisfied), B (satisfied, →X), C
(satisfied, →Y)]` where X is state 0 and Y is state 1; the machine starts
in state 2 which holds the checks. -/
def chkA : RCheck := ⟨.pyro1Continuity true, some (.transition 1)⟩

/-- Claim C2 scenario: check B, satisfied, transition to X (state 0). -/
def chkB : RCheck := ⟨.pyro2Continuity true, some (.transition 0)⟩

/-- Claim C2 scenario: check C, satisfied, transition to Y (state 1). -/
def chkC : RCheck := ⟨.pyro3Continuity true, some (.transition 1)⟩

/-- Claim C2 machine: current state 2 holds checks `[A, B, C]`. -/
def smChecks : StateMachine :=
  ⟨[⟨0, [], [], none⟩, ⟨1, [], [], none⟩, ⟨2, [chkA, chkB, chkC], [], none⟩],
   2, 0, 0⟩

/-- Claim C2 data source: pyro 1 continuity reads `false` (check A
unsatisfied), pyros 2 and 3 read `true` (checks B and C satisfied). -/
def dsChecks : CheckKind → Value
  | .pyro1Continuity => .bool false
  | .pyro2Continuity => .bool true
  | .pyro3Continuity => .bool true
  | .altitude => .f32 0
  | .apogeeFlag => .bool false

/-- Claim C3 machine: state 0 has a 3-second timeout to state 1; state 1
has a 2-second timeout to state 2.  Machine constructed at time 0. -/
def smTimeout : StateMachine :=
  ⟨[⟨0, [], [], some ⟨3, .transition 1⟩⟩,
    ⟨1, [], [], some ⟨2, .transition 2⟩⟩,
    ⟨2, [], [], none⟩],
   0, 0, 0⟩

/-- Claim C4 command: `Beacon(true)` with a 0.5-second delay, not yet
executed. -/
def cmdBeacon : RCommand := ⟨.beacon true, 1/2, false⟩

/-- Claim C4 machine: a single state holding `cmdBeacon`; machine
constructed (state entered) at time 0. -/
def smCommand : StateMachine := ⟨[⟨0, [], [cmdBeacon], none⟩], 0, 0, 0⟩

/-- A data source that is never consulted in the command scenarios. -/
def dsNone : CheckKind → Value := fun _ => .bool false

/-- Erase the per-command one-shot flags of a state: the only part of the
graph the live tick may mutate. -/
def eraseFired (st : RState) : RState :=
  { st with commands := st.commands.map fun c => { c with was_executed := false } }

end Nova

/-! ### Claims C6 and C7 -/

namespace Nova

/-- Concrete vector used by the witness of C6: capacity 2, one element pushed. -/
def vecOne : FrozenVec Nat 2 := ⟨[some 7, none], 1⟩

/-- Concrete full vector used by the witness of C6: capacity 1, one element. -/
def vecFull : FrozenVec Nat 1 := ⟨[some 3], 1⟩

end Nova

/-- Claim C6: for every well-formed `FrozenVec` with capacity `N` and every item,
`push` succeeds and increments `len` by one exactly when `len < N`; when
`len = N` it returns `Err` carrying the rejected item unchanged and the vector
(hence its length and all stored elements) is unmodified; a successful push
leaves every previously stored element unchanged, stores the item at position
`len`, and never takes the vector beyond `N` elements.  Both implementations
(`src/common/src/config_format/frozen.rs` and `src/src/frozen.rs`) agree. -/
theorem frozenVec_push_capacity {α : Type} {N : Nat} (v : Nova.FrozenVec α N)
    (x : α) (hwf : v.Wf) :
    (v.push x = if v.len < N then .ok (v.pushAux x) else .error x) ∧
    (v.pushS x = v.push x) ∧
    ((v.pushAux x).len = v.len + 1) ∧
    (∀ i, i < v.len → (v.pushAux x).get i = v.get i) ∧
    (v.len < N → (v.pushAux x).get v.len = some x ∧ (v.pushAux x).Wf) ∧
    (∀ v', v.push x = .ok v' → v'.len ≤ N) := by
  obtain ⟨hlen, hle, hinit⟩ := hwf
  refine ⟨?_, ?_, rfl, ?_, ?_, ?_⟩
  · unfold Nova.FrozenVec.push
    rcases Nat.lt_or_ge v.len N with h | h
    · rw [if_pos h, if_neg (Nat.ne_of_lt h)]
    · have heq : v.len = N := Nat.le_antisymm hle h
      rw [if_pos heq, if_neg (by omega)]
  · unfold Nova.FrozenVec.push Nova.FrozenVec.pushS
    rcases Nat.lt_or_ge v.len N with h | h
    · rw [if_pos h, if_neg (Nat.ne_of_lt h)]
    · have heq : v.len = N := Nat.le_antisymm hle h
      rw [if_pos heq, if_neg (by omega)]
  · intro i hi
    unfold Nova.FrozenVec.get Nova.FrozenVec.pushAux
    simp only
    rw [if_pos (by omega), if_pos hi]
    rw [List.getD_eq_getElem _ _ (by simp [hlen]; omega),
      List.getD_eq_getElem _ _ (by simp [hlen]; omega),
      List.getElem_set_ne (by omega)]
  · intro hltN
    constructor
    · unfold Nova.FrozenVec.get Nova.FrozenVec.pushAux
      simp only
      rw [if_pos (by omega)]
      rw [List.getD_eq_getElem _ _ (by simp [hlen]; omega), List.getElem_set_self]
    · refine ⟨by simp [Nova.FrozenVec.pushAux, hlen], by simp [Nova.FrozenVec.pushAux]; omega, ?_⟩
      intro i hi
      unfold Nova.FrozenVec.pushAux
      simp only [Nova.FrozenVec.pushAux] at hi
      rcases Nat.lt_or_ge i v.len with h | h
      · rw [List.getD_eq_getElem _ _ (by simp [hlen]; omega), List.getElem_set_ne (by omega)]
        have := hinit i h
        rwa [List.getD_eq_getElem _ _ (by simp [hlen]; omega)] at this
      · have heqi : i = v.len := by omega
        subst heqi
        rw [List.getD_eq_getElem _ _ (by simp [hlen]; omega), List.getElem_set_self]
        rfl
  · intro v' hok
    unfold Nova.FrozenVec.push at hok
    split at hok
    · exact absurd hok (by simp)
    · simp only [Except.ok.injEq] at hok
      subst hok
      unfold Nova.FrozenVec.pushAux
      simp only
      omega

/-- Witness for C6: instantiates the theorem both at a vector with free space
(capacity 2, length 1) and at a full vector (capacity 1), evaluating the
conclusions concretely. -/
theorem frozenVec_push_capacity_witness :
    (Nova.vecOne.Wf ∧ Nova.vecOne.push 9 = .ok ⟨[some 7, some 9], 2⟩) ∧
    (Nova.vecFull.Wf ∧ Nova.vecFull.push 9 = .error 9) := by
  refine ⟨⟨by decide, ?_⟩, ⟨by decide, ?_⟩⟩
  · have h := (frozenVec_push_capacity Nova.vecOne 9 (by decide)).1
    rw [h]; rfl
  · have h := (frozenVec_push_capacity Nova.vecFull 9 (by decide)).1
    rw [h]; rfl

/-- Claim C8 (code bug): the claim says `CheckData::kind` maps `ApogeeFlag`
to `CheckKind::ApogeeFlag` and is injective on variants.  The source
(config_format/mod.rs line 73 and data_format/mod.rs line 73) maps
`ApogeeFlag` to `CheckKind::Altitude`, the same kind as the `Altitude`
variant, so an apogee-flag check is dispatched to the altitude data source.
This contradicts the executor's stated invariant that the data workspace
"always returns the same type for a given CheckKind": the altitude source
yields a float, while an `ApogeeFlag` check expects a boolean. -/
theorem checkData_kind_apogee_misdispatch :
    Nova.CheckData.kind (.apogeeFlag true) = .altitude ∧
    Nova.CheckData.kind (.altitude (.greaterThan 0)) = .altitude ∧
    Nova.CheckData.kind (.apogeeFlag true) ≠ .apogeeFlag := by
  refine ⟨rfl, rfl, by decide⟩

/-- Claim C7 (code bug): the claim says `get(index)` returns `None` whenever
`index ≥ len`.  The implementation in `src/common/src/config_format/frozen.rs`
does exactly this, but the one in `src/src/frozen.rs` bounds-checks against
the capacity `N` instead of `len`: on an empty `FrozenVec<_, 8>`, `get(1)`
does not return `None` — it reads (and returns a reference into) the
uninitialized slot 1, contradicting the claim and the file's own
`test_accessors` test (`assert_eq!(vec.get(1), None)`). -/
theorem frozenVec_get_src_out_of_bounds :
    (Nova.FrozenVec.new Nat 8).getS 1 = some none ∧
    (Nova.FrozenVec.new Nat 8).get 1 = none := by
  decide

/-! ### Claims C1 and C10: the graph converter -/

open Nova in
/-- One check translates as expected when its transition index is valid and
the check collection has room (all arena allocations succeeding). -/
theorem convCheck_ok (len : Nat) (st : RState) (k : Nat) (c : ICheck)
    (hv : ∀ t, c.transition = some t → t.target < len)
    (hcap : st.checks.length < MAX_CHECKS_PER_STATE) :
    convCheck (fun _ => true) len st k c =
      .ok ({ st with checks := st.checks ++ [translateCheck c] }, k + 1) := by
  rcases hc : c.transition with _ | t
  · simp [convCheck, hc, Nat.ne_of_lt hcap, translateCheck]
  · have ht := hv t hc
    rcases t with s | s <;>
      simp_all [convCheck, transition_index_to_ref, translateCheck,
        IStateTransition.target, Nat.ne_of_lt hcap]

open Nova in
/-- The check pass appends the translated checks in order. -/
theorem convChecks_ok (len : Nat) :
    ∀ (cs : List ICheck) (st : RState) (k : Nat),
      (∀ c ∈ cs, ∀ t, c.transition = some t → t.target < len) →
      st.checks.length + cs.length ≤ MAX_CHECKS_PER_STATE →
      convChecks (fun _ => true) len st k cs =
        .ok ({ st with checks := st.checks ++ cs.map translateCheck }, k + cs.length)
  | [], st, k, _, _ => by simp [convChecks]
  | c :: cs, st, k, hv, hcap => by
    rw [convChecks,
      convCheck_ok len st k c (hv c (List.mem_cons_self c cs)) (by simp at hcap; omega)]
    dsimp only []
    rw [convChecks_ok len cs _ _ (fun c' h => hv c' (List.mem_cons_of_mem c h))
      (by simp at hcap ⊢; omega)]
    simp [List.append_assoc]
    omega

open Nova in
/-- One command translates as expected when the command collection has room. -/
theorem convCommand_ok (st : RState) (k : Nat) (c : ICommand)
    (hcap : st.commands.length < MAX_COMMANDS_PER_STATE) :
    convCommand (fun _ => true) st k c =
      .ok ({ st with commands := st.commands ++ [translateCommand c] }, k + 1) := by
  simp [convCommand, Nat.ne_of_lt hcap, translateCommand]

open Nova in
/-- The command pass appends the translated commands in order. -/
theorem convCommands_ok :
    ∀ (cs : List ICommand) (st : RState) (k : Nat),
      st.commands.length + cs.length ≤ MAX_COMMANDS_PER_STATE →
      convCommands (fun _ => true) st k cs =
        .ok ({ st with commands := st.commands ++ cs.map translateCommand }, k + cs.length)
  | [], st, k, _ => by simp [convCommands]
  | c :: cs, st, k, hcap => by
    rw [convCommands, convCommand_ok st k c (by simp at hcap; omega)]
    dsimp only []
    rw [convCommands_ok cs _ _ (by simp at hcap ⊢; omega)]
    simp [List.append_assoc]
    omega

open Nova in
/-- The timeout pass stores the translated timeout when its transition
index is valid. -/
theorem convTimeout_ok (len : Nat) (st : RState) (t : Option ITimeout)
    (hv : ∀ x, t = some x → x.transition.target < len)
    (hst : st.timeout = none) :
    convTimeout len st t = .ok { st with timeout := t.map translateTimeout } := by
  rcases t with _ | x
  · cases st
    simp_all [convTimeout]
  · have ht := hv x rfl
    rcases hx : x.transition with s | s <;>
      simp_all [convTimeout, transition_index_to_ref, translateTimeout,
        IStateTransition.target]

open Nova in
/-- The second pass over one state produces exactly the expected executable
state and advances the allocation counter by one call per check/command. -/
theorem convState_ok (len : Nat) (ist : IState) (i k : Nat)
    (h1 : ist.checks.length ≤ MAX_CHECKS_PER_STATE)
    (h2 : ist.commands.length ≤ MAX_COMMANDS_PER_STATE)
    (h3 : ∀ c ∈ ist.checks, ∀ t, c.transition = some t → t.target < len)
    (h4 : ∀ t, ist.timeout = some t → t.transition.target < len) :
    convState (fun _ => true) len ist (RState.new (i % 256)) k =
      .ok (expectedState i ist, k + ist.checks.length + ist.commands.length) := by
  have hc := convChecks_ok len ist.checks (RState.new (i % 256)) k h3
    (by simpa [RState.new] using h1)
  set st1 := { RState.new (i % 256) with
    checks := (RState.new (i % 256)).checks ++ ist.checks.map translateCheck } with hst1
  have hm := convCommands_ok ist.commands st1 (k + ist.checks.length)
    (by simp [hst1, RState.new]; exact h2)
  set st2 := { st1 with
    commands := st1.commands ++ ist.commands.map translateCommand } with hst2
  have ht := convTimeout_ok len st2 ist.timeout h4 (by simp [hst2, hst1, RState.new])
  unfold convState
  rw [hc]
  dsimp only []
  rw [hm]
  dsimp only []
  rw [ht]
  dsimp only []
  simp [hst2, hst1, RState.new, expectedState]

open Nova in
/-- The second pass over the whole state list produces the expected output. -/
theorem convStates_ok (len : Nat) :
    ∀ (ists : List IState) (i k : Nat),
      (∀ st ∈ ists, ValidState len st) →
      convStates (fun _ => true) len i k ists = .ok (expectedStates i ists)
  | [], _, _, _ => by simp [convStates, expectedStates]
  | ist :: rest, i, k, hv => by
    obtain ⟨h1, h2, h3, h4⟩ := hv ist (List.mem_cons_self ist rest)
    rw [convStates, convState_ok len ist i k h1 h2 h3 h4]
    dsimp only []
    rw [convStates_ok len rest (i + 1) _ (fun st h => hv st (List.mem_cons_of_mem ist h))]
    simp [expectedStates]

open Nova in
/-- Length of the expected output. -/
theorem expectedStates_length :
    ∀ (ists : List IState) (i : Nat), (expectedStates i ists).length = ists.length
  | [], _ => rfl
  | _ :: rest, i => by simp [expectedStates, expectedStates_length rest (i + 1)]

open Nova in
/-- Indexing the expected output. -/
theorem expectedStates_getElem? :
    ∀ (ists : List IState) (i j : Nat),
      (expectedStates i ists)[j]? = (ists[j]?).map (expectedState (i + j))
  | [], i, j => by simp [expectedStates]
  | ist :: rest, i, 0 => by simp [expectedStates]
  | ist :: rest, i, j + 1 => by
    have h : i + 1 + j = i + (j + 1) := by omega
    simp [expectedStates, expectedStates_getElem? rest (i + 1) j, h]

open Nova in
/-- Bridge from the executable well-formedness check to its components. -/
theorem wf_spec (cfg : IConfigFile) (h : cfg.Wf = true) :
    0 < cfg.states.length ∧ cfg.states.length ≤ MAX_STATES ∧
      ∀ st ∈ cfg.states, ValidState cfg.states.length st := by
  unfold IConfigFile.Wf at h
  simp only [Bool.and_eq_true, List.all_eq_true, decide_eq_true_eq] at h
  obtain ⟨⟨hpos, hle⟩, hall⟩ := h
  refine ⟨hpos, hle, ?_⟩
  intro st hst
  obtain ⟨⟨⟨hc, hm⟩, hcheck⟩, hto⟩ := hall st hst
  refine ⟨hc, hm, ?_, ?_⟩
  · intro c hcmem t htr
    have h := hcheck c hcmem
    rw [htr] at h
    simpa using h
  · intro t htt
    rw [htt] at hto
    simpa using hto

open Nova in
/-- Claim C1: for every well-formed portable `ConfigFile` (all transition
indices valid, per-state check/command counts within capacity, at least one
and at most `MAX_STATES` states) and an arena in which every allocation
succeeds, `indices_to_refs` returns the executable graph in which the state
at original position `i` has id `i`, the same checks (same `CheckData`, in
order) and commands (same object and delay, in order, fresh one-shot flag),
the same optional timeout, and every check and timeout transition resolved
to (the position of) the executable state whose id equals the original
target index — self-loops included, since targets are resolved purely by
position. -/
theorem indices_to_refs_roundtrip (cfg : IConfigFile) (hwf : cfg.Wf = true) :
    ∃ out : List RState, indices_to_refs cfg (fun _ => true) = .ok out ∧
      out.length = cfg.states.length ∧
      (∀ (i : Nat) (ist : IState), cfg.states[i]? = some ist →
        out[i]? = some ⟨i, ist.checks.map translateCheck,
                        ist.commands.map translateCommand,
                        ist.timeout.map translateTimeout⟩) ∧
      (∀ (i : Nat) (st : RState), out[i]? = some st →
        st.id = i ∧
        (∀ c ∈ st.checks, ∀ tr, c.transition = some tr →
          ∃ tgt, out[tr.target]? = some tgt ∧ tgt.id = tr.target) ∧
        (∀ tm, st.timeout = some tm →
          ∃ tgt, out[tm.transition.target]? = some tgt ∧
            tgt.id = tm.transition.target)) := by
  obtain ⟨hpos, hle, hall⟩ := wf_spec cfg hwf
  have hlen256 : cfg.states.length ≤ 256 := by
    unfold MAX_STATES at hle
    omega
  have hgetexp : ∀ j, j < cfg.states.length →
      ∀ ist, cfg.states[j]? = some ist →
        (expectedStates 0 cfg.states)[j]? = some (expectedState j ist) := by
    intro j hj ist hist
    rw [expectedStates_getElem?, hist]
    simp
  refine ⟨expectedStates 0 cfg.states, ?_, expectedStates_length _ _, ?_, ?_⟩
  · have hconv := convStates_ok cfg.states.length cfg.states 0 1 hall
    have hne : cfg.states.length ≠ 0 := by omega
    simp [indices_to_refs, hne, hconv]
  · intro i ist hist
    have hi : i < cfg.states.length := by
      by_contra hcon
      rw [List.getElem?_eq_none (by omega)] at hist
      exact absurd hist (by simp)
    rw [hgetexp i hi ist hist]
    have hid : i % 256 = i := Nat.mod_eq_of_lt (by omega)
    simp [expectedState, hid]
  · intro i st hst
    have hi : i < cfg.states.length := by
      by_contra hcon
      rw [List.getElem?_eq_none (by rw [expectedStates_length]; omega)] at hst
      exact absurd hst (by simp)
    obtain ⟨ist, hist⟩ : ∃ ist, cfg.states[i]? = some ist :=
      ⟨_, List.getElem?_eq_getElem hi⟩
    have hmem : ist ∈ cfg.states := List.getElem?_mem hist
    obtain ⟨hcap1, hcap2, hchecks, htimeout⟩ := hall ist hmem
    have hsteq : st = expectedState i ist := by
      rw [hgetexp i hi ist hist] at hst
      exact (Option.some.injEq _ _ ▸ hst).symm
    have htgt_ok : ∀ n, n < cfg.states.length →
        ∃ tgt, (expectedStates 0 cfg.states)[n]? = some tgt ∧ tgt.id = n := by
      intro n hn
      obtain ⟨ist2, hist2⟩ : ∃ x, cfg.states[n]? = some x :=
        ⟨_, List.getElem?_eq_getElem hn⟩
      refine ⟨expectedState n ist2, hgetexp n hn ist2 hist2, ?_⟩
      simp [expectedState, Nat.mod_eq_of_lt (show n < 256 by omega)]
    refine ⟨?_, ?_, ?_⟩
    · rw [hsteq]
      simp [expectedState, Nat.mod_eq_of_lt (show i < 256 by omega)]
    · intro c hc tr htr
      rw [hsteq] at hc
      simp only [expectedState, List.mem_map] at hc
      obtain ⟨c0, hc0mem, hc0eq⟩ := hc
      subst hc0eq
      unfold translateCheck at htr
      rcases h0 : c0.transition with _ | t0
      · rw [h0] at htr
        exact absurd htr (by simp)
      · rw [h0] at htr
        simp only [Option.map_some', Option.some.injEq] at htr
        subst htr
        have htlt : t0.target < cfg.states.length := hchecks c0 hc0mem t0 h0
        have htreq : (match t0 with
            | IStateTransition.transition s => RStateTransition.transition s
            | IStateTransition.abort s => RStateTransition.abort s).target
              = t0.target := by
          rcases t0 with s | s <;>
            simp [RStateTransition.target, IStateTransition.target]
        rw [htreq]
        exact htgt_ok t0.target htlt
    · intro tm htm
      rw [hsteq] at htm
      simp only [expectedState] at htm
      rcases h0 : ist.timeout with _ | t0
      · rw [h0] at htm
        exact absurd htm (by simp)
      · rw [h0] at htm
        simp only [Option.map_some', Option.some.injEq] at htm
        subst htm
        have htlt : t0.transition.target < cfg.states.length := htimeout t0 h0
        have htreq : (translateTimeout t0).transition.target
            = t0.transition.target := by
          rcases ht0 : t0.transition with s | s <;>
            simp [translateTimeout, ht0, RStateTransition.target, IStateTransition.target]
        rw [htreq]
        exact htgt_ok t0.transition.target htlt

open Nova in
/-- Witness for C1: the round-trip theorem applied to the concrete config
`cfgRT` (two states; forward, self-loop, and timeout transitions). -/
theorem indices_to_refs_roundtrip_witness :
    Nova.cfgRT.Wf = true ∧
    ∃ out : List Nova.RState,
      indices_to_refs cfgRT (fun _ => true) = .ok out ∧ out.length = 2 := by
  refine ⟨by decide, ?_⟩
  obtain ⟨out, h1, h2, -, -⟩ := indices_to_refs_roundtrip cfgRT (by decide)
  exact ⟨out, h1, by rw [h2]; rfl⟩

open Nova in
/-- Claim C10: arena exhaustion in `indices_to_refs` is surfaced
non-uniformly: a failure of the backing-array allocation (call 0) makes the
function return `None`, while a failure of any individual check or command
node allocation in the second pass panics through `unwrap` — shown
concretely on a one-state/one-check config with an allocator that fails
from the second call on. -/
theorem indices_to_refs_alloc_nonuniform :
    (∀ (cfg : IConfigFile) (alloc : Nat → Bool), 0 < cfg.states.length →
      alloc 0 = false → indices_to_refs cfg alloc = .noMem) ∧
    indices_to_refs cfgOne (fun k => k == 0) = .panicked := by
  constructor
  · intro cfg alloc hpos h0
    have hne : cfg.states.length ≠ 0 := by omega
    simp [indices_to_refs, hne, h0]
  · rfl

open Nova in
/-- Witness for C10: the `None` branch of the theorem applied to the
concrete config `cfgOne` with an allocator that always fails. -/
theorem indices_to_refs_alloc_nonuniform_witness :
    0 < Nova.cfgOne.states.length ∧
    indices_to_refs cfgOne (fun _ => false) = .noMem :=
  ⟨by decide, indices_to_refs_alloc_nonuniform.1 cfgOne (fun _ => false) (by decide) rfl⟩

/-! ### Claims C2-C5 and C9: the execution engine -/

/-- Setting a list element to itself is the identity. -/
theorem list_set_getElem_self {α : Type} (l : List α) (i : Nat)
    (h : i < l.length) : l.set i l[i] = l := by
  apply List.ext_getElem?
  intro n
  rcases eq_or_ne i n with rfl | hne
  · rw [List.getElem?_set_self h, List.getElem?_eq_getElem h]
  · rw [List.getElem?_set_ne hne]

open Nova in
/-- A tick of `execute_command` changes nothing but the `was_executed`
flag. -/
theorem eraseFired_execute_command (last now : ℚ) (c : RCommand) :
    { execute_command last now c with was_executed := false } =
      { c with was_executed := false } := by
  rcases c with ⟨obj, delay, w⟩
  by_cases h1 : w <;> by_cases h2 : elapsed last now ≥ delay <;>
    simp [execute_command, h1, h2]

open Nova in
/-- The command pass leaves the current state unchanged up to
`was_executed` flags. -/
theorem eraseFired_command_pass (last now : ℚ) (st : RState) :
    eraseFired { st with commands := st.commands.map (execute_command last now) } =
      eraseFired st := by
  unfold eraseFired
  simp only [List.map_map]
  have : ∀ c ∈ st.commands,
      ((fun c => { c with was_executed := false }) ∘ execute_command last now) c =
        (fun c => { c with was_executed := false }) c := by
    intro c _
    simp only [Function.comp]
    exact eraseFired_execute_command last now c
  rw [List.map_congr_left this]

open Nova in
/-- The whole command pass leaves the graph unchanged up to `was_executed`
flags. -/
theorem run_commands_states_erase (m : StateMachine) (now : ℚ) :
    (m.run_commands now).states.map eraseFired = m.states.map eraseFired := by
  unfold StateMachine.run_commands StateMachine.currentState
  simp only []
  rcases Nat.lt_or_ge m.current_state m.states.length with h | h
  · rw [List.getD_eq_getElem _ _ h, List.map_set, eraseFired_command_pass]
    rw [← List.getElem_map eraseFired (l := m.states) (n := m.current_state)
      (h := by simpa using h)]
    exact list_set_getElem_self _ _ (by simpa using h)
  · rw [List.set_eq_of_length_le (by omega)]

open Nova in
/-- The command pass does not change the three scalar fields of the
machine. -/
theorem run_commands_fields (m : StateMachine) (now : ℚ) :
    (m.run_commands now).current_state = m.current_state ∧
    (m.run_commands now).start_time = m.start_time ∧
    (m.run_commands now).last_transition_time = m.last_transition_time := by
  unfold StateMachine.run_commands
  exact ⟨rfl, rfl, rfl⟩

open Nova in
/-- Claim C5: on every tick, if checks or the timeout selected a transition
target, `execute` sets `current_state` to that target and resets the
activation timestamp (`last_transition_time`) to now, with the
`Transition` and `Abort` variants having the identical effect on the
machine; if nothing was selected, `current_state` and
`last_transition_time` (and `start_time`) are unchanged, and in every case
the only other mutation of the tick is the flipping of `was_executed`
command flags by step 1 (the graph is unchanged up to those flags). -/
theorem execute_frame (m : Nova.StateMachine) (now : ℚ) :
    (m.execute now).start_time = m.start_time ∧
    (m.execute now).current_state =
      (match (m.execute_state now).2 with
       | some tr => tr.target
       | none => m.current_state) ∧
    (m.execute now).last_transition_time =
      (match (m.execute_state now).2 with
       | some _ => now
       | none => m.last_transition_time) ∧
    (∀ s, m.transition (.transition s) now = m.transition (.abort s) now) ∧
    (m.execute now).states.map eraseFired = m.states.map eraseFired := by
  obtain ⟨hcur, hstart, hlast⟩ := run_commands_fields m now
  have herase := run_commands_states_erase m now
  unfold StateMachine.execute StateMachine.execute_state
  rcases hsel : m.select_transition now with _ | tr
  · dsimp only []
    exact ⟨hstart, hcur, hlast, fun s => rfl, herase⟩
  · dsimp only [StateMachine.transition]
    refine ⟨hstart, ?_, rfl, fun s => rfl, herase⟩
    rcases tr with s | s <;> simp [Nova.RStateTransition.target]

open Nova in
/-- Claim C2 (code bug): the claim describes the short-circuit of the first
satisfied check: with checks `[A (unsatisfied), B (satisfied, →X), C
(satisfied, →Y)]`, `execute()` should transition to X.  In the live code
the body of `execute_check` is commented out behind a `FIXME` and the
function unconditionally returns `None`, so `execute()` performs no
check-based transition at all: the machine stays in state 2 instead of
moving to X (state 0).  The commented-out evaluation (embedded as
`execute_check_fixme`) does classify A as unsatisfied and B, C as
satisfied with their transitions, and a tick running it (`execute_fixme`)
transitions to X, never Y — confirming the claim describes the disabled
code, not the live code. -/
theorem execute_check_dead_code :
    Nova.execute_check_fixme Nova.dsChecks Nova.chkA = some none ∧
    Nova.execute_check_fixme Nova.dsChecks Nova.chkB =
      some (some (.transition 0)) ∧
    Nova.execute_check_fixme Nova.dsChecks Nova.chkC =
      some (some (.transition 1)) ∧
    (Nova.smChecks.execute 1).current_state = 2 ∧
    ((Nova.smChecks.execute_fixme Nova.dsChecks 1).map
      fun p => p.1.current_state) = some 0 := by
  refine ⟨rfl, rfl, rfl, ?_, ?_⟩
  · norm_num [smChecks, StateMachine.execute, StateMachine.execute_state,
      StateMachine.run_commands, StateMachine.select_transition,
      StateMachine.currentState, execute_check, List.getD]
  · norm_num [smChecks, StateMachine.execute_fixme, StateMachine.currentState,
      StateMachine.transition, run_commands_fixme, find_transition_fixme,
      execute_check_fixme, check_satisfied, CheckData.kind, dsChecks,
      chkA, chkB, chkC, List.getD]

open Nova in
/-- Claim C3 (code bug): the claim says a state's timeout fires exactly when
`now - activation_time ≥ duration` (time since the state was entered, not
since machine start).  The live code (executor.rs line 61) compares
`start_time.elapsed()` — time since machine start.  Concretely: the
machine starts in state 0 at time 0 (timeout 3s → state 1).  The tick at
`now = 5` fires that timeout and resets the activation time to 5.  On the
next tick at `now = 6`, state 1 (timeout 2s → state 2) has been active for
only 1 second, yet the code fires its timeout (6 - 0 ≥ 2) and moves to
state 2, where the claim requires the machine to stay in state 1. -/
theorem timeout_measured_from_machine_start :
    (Nova.smTimeout.execute 5).current_state = 1 ∧
    (Nova.smTimeout.execute 5).last_transition_time = 5 ∧
    Nova.elapsed ((Nova.smTimeout.execute 5).last_transition_time) 6 = 1 ∧
    ((Nova.smTimeout.execute 5).execute 6).current_state = 2 := by
  refine ⟨?_, ?_, ?_, ?_⟩ <;>
    norm_num [smTimeout, StateMachine.execute, StateMachine.execute_state,
      StateMachine.run_commands, StateMachine.select_transition,
      StateMachine.currentState, StateMachine.transition, execute_check,
      elapsed, List.getD]

open Nova in
/-- Claim C4 (code bug): the claim says an eligible command's target/value is
passed to the command-sink and the command is marked fired, exactly once
per state activation.  The live `execute_command` (executor.rs lines
71-79) marks the command fired, but the sink call on line 75 is commented
out behind a `FIXME`, so the sink is never invoked (the live
`StateMachine` does not even hold a `Controls` handle).  With the
commented call restored (`execute_fixme`), the `Beacon(true)` command with
delay 0.5s fires the sink exactly once at the first tick past its delay
and never again on a later tick. -/
theorem command_sink_never_invoked :
    (Nova.smCommand.execute 1).states =
      [⟨0, [], [⟨.beacon true, 1/2, true⟩], none⟩] ∧
    ((Nova.smCommand.execute_fixme Nova.dsNone 1).map fun p => p.2) =
      some [.beacon true] ∧
    ((Nova.smCommand.execute_fixme Nova.dsNone 1).bind fun p =>
      (p.1.execute_fixme Nova.dsNone 2).map fun q => q.2) = some [] := by
  refine ⟨?_, ?_, ?_⟩ <;>
    norm_num [smCommand, cmdBeacon, StateMachine.execute,
      StateMachine.execute_state, StateMachine.run_commands,
      StateMachine.select_transition, StateMachine.currentState,
      StateMachine.execute_fixme, run_commands_fixme, execute_command,
      execute_command_fixme, find_transition_fixme, execute_check,
      elapsed, List.getD]

open Nova in
/-- Claim C9 (code bug): the claim fixes `Between{lower_bound, upper_bound}`
as the closed interval `lower_bound ≤ v ≤ upper_bound`.  The only check
evaluation in the cited executor (the commented-out `FIXME` body, lines
88-95) implements `GreaterThan`/`LessThan` strictly, as the claim states,
but computes `Between` as `v >= upper_bound && v <= lower_bound`: with
`upper_bound = 10`, `lower_bound = 0` the value `5` is *not* satisfied
(claim: satisfied), while with the fields swapped (`upper_bound = 0,
lower_bound = 10`) it is — the comparisons against the two bounds are
reversed relative to the field names. -/
theorem between_bounds_reversed :
    Nova.check_satisfied (.altitude (.greaterThan 200)) (.f32 201) = some true ∧
    Nova.check_satisfied (.altitude (.greaterThan 200)) (.f32 200) = some false ∧
    Nova.check_satisfied (.altitude (.lessThan 100)) (.f32 99) = some true ∧
    Nova.check_satisfied (.altitude (.lessThan 100)) (.f32 100) = some false ∧
    Nova.check_satisfied (.altitude (.between 10 0)) (.f32 5) = some false ∧
    Nova.check_satisfied (.altitude (.between 0 10)) (.f32 5) = some true := by
  refine ⟨?_, ?_, ?_, ?_, ?_, ?_⟩ <;> norm_num [check_satisfied]
